import Mathlib

/-!
Verification of the Document-Signature-App coordinate-normalization and
PDF-stamping pipeline.

The development shallowly embeds the relevant source functions:

* `handleMoveSignature` (DocumentViewer, `src/unnamed/part_001`):
  pixel → fraction normalization performed when a signature field is moved.
* the overlay render expression (DocumentViewer): fraction → pixel.
* `handleMouseMove` (`src/src/components/pdf/SignatureField.tsx`): the drag
  pixel computation with its `Math.max(0, _)` floor.
* the `download-signed-document` edge function
  (`src/supabase/functions/download-signed-document/index.ts`): the stamping
  loop, its placement arithmetic, page resolution and error propagation.
* `handleComplete` and the Complete-button gate
  (`src/src/components/pdf/SignatureCapture.tsx`).
* `handleSignatureComplete` / `handleRejectDocument`
  (`src/src/pages/SignDocument.tsx`): the field-status transition operations.

Coordinates are modelled over `ℚ`.  Where JavaScript division by zero matters
(`x / 0` is `Infinity`/`NaN`, not `0`) the result type `JSNum` records the
non-finite outcomes explicitly.
-/

/-- JavaScript number results distinguishing the non-finite values that a
division by zero produces. -/
inductive JSNum where
  | num : ℚ → JSNum
  | posInf : JSNum
  | negInf : JSNum
  | nan : JSNum
deriving DecidableEq, Repr

/-- JavaScript division: for a nonzero divisor it is exact rational division;
dividing a positive (resp. negative) number by zero yields `Infinity`
(resp. `-Infinity`) and `0 / 0` yields `NaN`. -/
def jsDiv (a b : ℚ) : JSNum :=
  if b = 0 then
    if 0 < a then .posInf else if a < 0 then .negInf else .nan
  else .num (a / b)

/-- The measured state of the PDF container (`pdfContainerRef.current`):
its full scrollable size and current scroll offsets. -/
structure ContainerState where
  scrollWidth : ℚ
  scrollHeight : ℚ
  scrollLeft : ℚ
  scrollTop : ℚ
deriving DecidableEq, Repr

/-- `handleMoveSignature` (DocumentViewer): given the container ref (possibly
null) and a pixel position relative to the container, returns the normalized
fraction pair that is persisted to the `signatures` row, or `none` when the
ref is null (the only early return in the source).  The source computes
`absoluteX = x + container.scrollLeft` and `normalizedX = absoluteX /
container.scrollWidth`, with no check that the scrollable size is nonzero and
no clamping. -/
def handleMoveSignature (container : Option ContainerState) (x y : ℚ) :
    Option (JSNum × JSNum) :=
  match container with
  | none => none
  | some c =>
      some (jsDiv (x + c.scrollLeft) c.scrollWidth,
            jsDiv (y + c.scrollTop) c.scrollHeight)

/-- The overlay render expression in DocumentViewer:
`x={(signature.x_position || 0) * containerSize.width}` — fraction → pixel. -/
def overlayPixel (fraction contentSize : ℚ) : ℚ :=
  fraction * contentSize

/-- `handleMouseMove` (SignatureField): the pixel coordinate handed to
`onMove` is `Math.max(0, e.clientX - containerRect.left - dragOffset.x)`. -/
def handleMouseMovePixel (client rectOrigin dragOffset : ℚ) : ℚ :=
  max 0 (client - rectOrigin - dragOffset)

/-- The stamping placement X in the `download-signed-document` function:
`absoluteX = sig.x_position * page.getWidth()`. -/
def drawImageX (xPosition pageWidth : ℚ) : ℚ :=
  xPosition * pageWidth

/-- The stamping placement Y in the `download-signed-document` function:
`y: page.getHeight() - absoluteY - sig.height` where
`absoluteY = sig.y_position * page.getHeight()`. -/
def drawImageY (yPosition pageHeight height : ℚ) : ℚ :=
  pageHeight - yPosition * pageHeight - height

/-- C1 -- The stamping placement formula of the code, evaluated at page size
612x792, `xFraction = yFraction = 0.1`, `height = 50`: the claim asserts the
bottom-left Y equals 663.2, but `792 - 0.1*792 - 50 = 662.8`, so the claimed
value is false. -/
theorem C1_counterexample :
    drawImageY (1/10) 792 50 ≠ 6632/10 := by
  unfold drawImageY
  norm_num

/-- C1 (amended) -- For a page of native size 612x792 points with
`xFraction = 0.1`, `yFraction = 0.1` and field height 50, the code places the
image at X = 61.2 and bottom-left Y = 792 - 0.1*792 - 50 = 662.8. -/
theorem C1_placement :
    drawImageX (1/10) 612 = 612/10 ∧ drawImageY (1/10) 792 50 = 6628/10 := by
  constructor
  · unfold drawImageX; norm_num
  · unfold drawImageY; norm_num

/-- C2 -- Round trip: for positive content dimensions and a pixel position
within bounds, normalizing the position with `handleMoveSignature` (at zero
scroll offset, so the input pixel is already content-origin relative) and
rendering the resulting fraction back with the overlay expression at the same
content size recovers the pixel exactly. -/
theorem C2_round_trip (w h px py : ℚ)
    (hw : 0 < w) (hh : 0 < h)
    (hpx0 : 0 ≤ px) (hpxw : px ≤ w) (hpy0 : 0 ≤ py) (hpyh : py ≤ h) :
    handleMoveSignature (some ⟨w, h, 0, 0⟩) px py
      = some (.num (px / w), .num (py / h)) ∧
    overlayPixel (px / w) w = px ∧ overlayPixel (py / h) h = py := by
  refine ⟨?_, ?_, ?_⟩
  · simp [handleMoveSignature, jsDiv, hw.ne', hh.ne']
  · unfold overlayPixel
    field_simp
  · unfold overlayPixel
    field_simp

/-- C2 witness: the round trip at content size 800x600 and pixel (120, 90). -/
theorem C2_round_trip_witness :
    handleMoveSignature (some ⟨800, 600, 0, 0⟩) 120 90
      = some (.num (120 / 800), .num (90 / 600)) ∧
    overlayPixel (120 / 800) 800 = 120 ∧ overlayPixel (90 / 600) 600 = 90 :=
  C2_round_trip 800 600 120 90 (by norm_num) (by norm_num) (by norm_num)
    (by norm_num) (by norm_num) (by norm_num)

/-- C4 -- Evaluation of `handleMoveSignature` at the failing input: the
container ref is present but the content size is still zero (unmeasured).
The source's only guard is `if (!container) return`, so the operation is not
rejected: it divides by zero and emits `Infinity` for both coordinates, which
is then persisted as the field's position. -/
theorem C4_zero_size_emits_infinity :
    handleMoveSignature (some ⟨0, 0, 0, 0⟩) 10 10
      = some (.posInf, .posInf) ∧
    handleMoveSignature (some ⟨0, 0, 0, 0⟩) 10 10 ≠ none := by
  constructor
  · simp [handleMoveSignature, jsDiv]
  · simp [handleMoveSignature]

/-- C5 -- Counterexample to the upper clamp: dragging to pixel 150 on content
of width 100 (client 150, container origin 0, drag offset 0, zero scroll)
produces the fraction 3/2, which does not lie in `[0, 1]`: the source floors
at 0 via `Math.max` but never clamps above. -/
theorem C5_counterexample :
    handleMoveSignature (some ⟨100, 100, 0, 0⟩)
        (handleMouseMovePixel 150 0 0) (handleMouseMovePixel 50 0 0)
      = some (.num (3/2), .num (1/2)) ∧ ¬ ((3:ℚ)/2 ≤ 1) := by
  constructor
  · simp [handleMoveSignature, handleMouseMovePixel, jsDiv]
    norm_num
  · norm_num

/-- C5 (amended) -- The drag pipeline only clamps from below: for positive
content size and nonnegative scroll offsets, the fraction produced by
`handleMouseMove` followed by `handleMoveSignature` is a finite number that is
at least 0 (raw drag positions below 0 are floored to 0 by `Math.max`); no
upper clamp is applied, so the fraction may exceed 1. -/
theorem C5_lower_clamp (w h sl st cx rx dx cy ry dy : ℚ)
    (hw : 0 < w) (hh : 0 < h) (hsl : 0 ≤ sl) (hst : 0 ≤ st) :
    handleMoveSignature (some ⟨w, h, sl, st⟩)
        (handleMouseMovePixel cx rx dx) (handleMouseMovePixel cy ry dy)
      = some (.num ((handleMouseMovePixel cx rx dx + sl) / w),
              .num ((handleMouseMovePixel cy ry dy + st) / h)) ∧
    0 ≤ (handleMouseMovePixel cx rx dx + sl) / w ∧
    0 ≤ (handleMouseMovePixel cy ry dy + st) / h := by
  have hx : 0 ≤ handleMouseMovePixel cx rx dx := le_max_left 0 _
  have hy : 0 ≤ handleMouseMovePixel cy ry dy := le_max_left 0 _
  refine ⟨?_, ?_, ?_⟩
  · simp [handleMoveSignature, jsDiv, hw.ne', hh.ne']
  · exact div_nonneg (add_nonneg hx hsl) hw.le
  · exact div_nonneg (add_nonneg hy hst) hh.le

/-- C5 witness: the lower clamp at content size 100x100, zero scroll and a
drag that would land at raw pixel -20 (client 30, origin 0, drag offset 50):
the emitted fraction is 0. -/
theorem C5_lower_clamp_witness :
    handleMoveSignature (some ⟨100, 100, 0, 0⟩)
        (handleMouseMovePixel 30 0 50) (handleMouseMovePixel 60 0 10)
      = some (.num ((handleMouseMovePixel 30 0 50 + 0) / 100),
              .num ((handleMouseMovePixel 60 0 10 + 0) / 100)) ∧
    0 ≤ (handleMouseMovePixel 30 0 50 + 0) / 100 ∧
    0 ≤ (handleMouseMovePixel 60 0 10 + 0) / 100 :=
  C5_lower_clamp 100 100 0 0 30 0 50 60 0 10 (by norm_num) (by norm_num)
    le_rfl le_rfl

/-- Status of a signature row, as stored in the `signatures` table. -/
inductive SigStatus where
  | pending : SigStatus
  | signed : SigStatus
  | rejected : SigStatus
deriving DecidableEq, Repr

/-- A row of the `signatures` table as selected by the
`download-signed-document` function:
`signature_data, x_position, y_position, width, height, page_number`,
together with the `status` column the query filters on. -/
structure SignatureRow where
  signature_data : Option String
  x_position : ℚ
  y_position : ℚ
  width : ℚ
  height : ℚ
  page_number : ℤ
  status : SigStatus
deriving DecidableEq, Repr

/-- An image drawn onto a PDF page by `page.drawImage`, with the position and
box size passed to the call. -/
structure PlacedImage where
  imgData : String
  x : ℚ
  y : ℚ
  width : ℚ
  height : ℚ
deriving DecidableEq, Repr

/-- A page of the loaded PDF document: its native point size, its original
content (text), and the images drawn onto it so far. -/
structure PdfPage where
  pageWidth : ℚ
  pageHeight : ℚ
  text : String
  images : List PlacedImage
deriving DecidableEq, Repr

/-- The part of a page unaffected by `drawImage`: size and text content. -/
def pageSkeleton (p : PdfPage) : ℚ × ℚ × String :=
  (p.pageWidth, p.pageHeight, p.text)

/-- The skeletons of all pages: equal skeletons mean equal page count and
identical per-page size and text content. -/
def skeletons (pages : List PdfPage) : List (ℚ × ℚ × String) :=
  pages.map pageSkeleton

/-- Total number of embedded images across all pages. -/
def imageCount (pages : List PdfPage) : Nat :=
  (pages.map (fun p => p.images.length)).sum

/-- JavaScript array indexing `pages[i]` is in range exactly when
`0 ≤ i < pages.length`; otherwise it yields `undefined`. -/
def inRange (numPages : Nat) (i : ℤ) : Bool :=
  decide (0 ≤ i ∧ i.toNat < numPages)

/-- `pages[sig.page_number - 1]`: `some` page when the zero-based index is in
range, `none` (JavaScript `undefined`) otherwise. -/
def jsIndex (pages : List PdfPage) (i : ℤ) : Option PdfPage :=
  if h : 0 ≤ i ∧ i.toNat < pages.length then some (pages.get ⟨i.toNat, h.2⟩)
  else none

/-- `pdfDoc.embedPng(data)`: decodes the PNG or throws.  The decoder itself
is external (pdf-lib); it is abstracted by the predicate `pngOk`. -/
def embedPng (pngOk : String → Bool) (data : String) : Except String String :=
  if pngOk data then .ok data else .error "embedPng failed"

/-- `page.drawImage(pngImage, {...})` with the placement computed in the
source: `x = absoluteX`, `y = pageHeight - absoluteY - sig.height`. -/
def drawImage (p : PdfPage) (img : String) (sig : SignatureRow) : PdfPage :=
  { p with images := p.images ++
      [⟨img, drawImageX sig.x_position p.pageWidth,
        drawImageY sig.y_position p.pageHeight sig.height,
        sig.width, sig.height⟩] }

/-- One iteration of the stamping loop for a row `sig`:
`if (sig.signature_data)` guard, page resolution with `continue` on a missing
page, `embedPng` (which may throw, aborting the run), then `drawImage`. -/
def stampField (pngOk : String → Bool) (pages : List PdfPage)
    (sig : SignatureRow) : Except String (List PdfPage) :=
  match sig.signature_data with
  | none => .ok pages
  | some d =>
      match jsIndex pages (sig.page_number - 1) with
      | none => .ok pages
      | some page =>
          match embedPng pngOk d with
          | .error e => .error e
          | .ok img =>
              .ok (pages.set (sig.page_number - 1).toNat (drawImage page img sig))

/-- The `for (const sig of signatures)` loop of the edge function, threading
the page list; the first `embedPng` exception aborts the whole run. -/
def stampLoop (pngOk : String → Bool) (pages : List PdfPage) :
    List SignatureRow → Except String (List PdfPage)
  | [] => .ok pages
  | sig :: rest =>
      match stampField pngOk pages sig with
      | .error e => .error e
      | .ok next => stampLoop pngOk next rest

/-- The `signatures` query of the edge function: it selects only rows with
`.eq('status', 'signed')`. -/
def signedRows (rows : List SignatureRow) : List SignatureRow :=
  rows.filter (fun r => decide (r.status = SigStatus.signed))

/-- The handler outcome: on success the stamped document is uploaded and its
URL returned; on any thrown error the `catch` block returns a 500 error
response and nothing is uploaded. -/
inductive HandlerResponse where
  | signedUrl : List PdfPage → HandlerResponse
  | errorResponse : String → HandlerResponse
deriving DecidableEq, Repr

/-- The `download-signed-document` handler restricted to the stamping core:
load pages, query the signed rows, run the stamping loop; a thrown error is
caught and surfaced as an error response with no uploaded document. -/
def downloadSignedDocument (pngOk : String → Bool) (pages : List PdfPage)
    (rows : List SignatureRow) : HandlerResponse :=
  match stampLoop pngOk pages (signedRows rows) with
  | .ok out => .signedUrl out
  | .error e => .errorResponse e

@[simp]
theorem imageCount_nil : imageCount [] = 0 := rfl

@[simp]
theorem imageCount_cons (p : PdfPage) (tl : List PdfPage) :
    imageCount (p :: tl) = p.images.length + imageCount tl := by
  simp [imageCount]

@[simp]
theorem skeletons_nil : skeletons [] = [] := rfl

@[simp]
theorem skeletons_cons (p : PdfPage) (tl : List PdfPage) :
    skeletons (p :: tl) = pageSkeleton p :: skeletons tl := rfl

theorem pageSkeleton_drawImage (p : PdfPage) (img : String)
    (sig : SignatureRow) : pageSkeleton (drawImage p img sig) = pageSkeleton p :=
  rfl

theorem skeletons_length (pages : List PdfPage) :
    (skeletons pages).length = pages.length := by
  simp [skeletons]

theorem skeletons_set (pages : List PdfPage) (i : ℕ) (a : PdfPage)
    (h : i < pages.length)
    (hsk : pageSkeleton a = pageSkeleton (pages.get ⟨i, h⟩)) :
    skeletons (pages.set i a) = skeletons pages := by
  induction pages generalizing i with
  | nil => simp at h
  | cons p tl ih =>
      cases i with
      | zero =>
          simp only [List.get] at hsk
          simp [List.set, hsk]
      | succ n =>
          simp only [List.get] at hsk
          have hn : n < tl.length := by
            simpa using Nat.lt_of_succ_lt_succ h
          simp [List.set, ih n hn hsk]

theorem imageCount_set_add (pages : List PdfPage) (i : ℕ) (a : PdfPage)
    (h : i < pages.length)
    (hlen : a.images.length = (pages.get ⟨i, h⟩).images.length + 1) :
    imageCount (pages.set i a) = imageCount pages + 1 := by
  induction pages generalizing i with
  | nil => simp at h
  | cons p tl ih =>
      cases i with
      | zero =>
          simp only [List.get] at hlen
          simp [List.set, hlen]
          omega
      | succ n =>
          simp only [List.get] at hlen
          have hn : n < tl.length := by
            simpa using Nat.lt_of_succ_lt_succ h
          simp [List.set, ih n hn hlen]
          omega

theorem drawImage_images_length (p : PdfPage) (img : String)
    (sig : SignatureRow) :
    (drawImage p img sig).images.length = p.images.length + 1 := by
  simp [drawImage]

/-- A row is actually stamped by the loop exactly when it carries non-null
data, its page index is in range, and its PNG decodes. -/
def stampableB (pngOk : String → Bool) (numPages : ℕ) (r : SignatureRow) :
    Bool :=
  match r.signature_data with
  | none => false
  | some d => inRange numPages (r.page_number - 1) && pngOk d

theorem inRange_iff (n : ℕ) (i : ℤ) :
    inRange n i = true ↔ (0 ≤ i ∧ i.toNat < n) := by
  simp [inRange]

theorem jsIndex_eq_none (pages : List PdfPage) (i : ℤ)
    (hr : inRange pages.length i = false) : jsIndex pages i = none := by
  unfold jsIndex
  rw [dif_neg]
  intro hc
  rw [← inRange_iff] at hc
  rw [hc] at hr
  exact Bool.true_eq_false.mp hr

theorem jsIndex_eq_some (pages : List PdfPage) (i : ℤ)
    (hr : inRange pages.length i = true) :
    ∃ h : i.toNat < pages.length,
      jsIndex pages i = some (pages.get ⟨i.toNat, h⟩) := by
  rw [inRange_iff] at hr
  refine ⟨hr.2, ?_⟩
  unfold jsIndex
  rw [dif_pos hr]

theorem stampField_skip_none (pngOk : String → Bool) (pages : List PdfPage)
    (sig : SignatureRow) (hd : sig.signature_data = none) :
    stampField pngOk pages sig = .ok pages := by
  unfold stampField
  rw [hd]

theorem stampField_skip_range (pngOk : String → Bool) (pages : List PdfPage)
    (sig : SignatureRow)
    (hr : inRange pages.length (sig.page_number - 1) = false) :
    stampField pngOk pages sig = .ok pages := by
  unfold stampField
  cases hd : sig.signature_data with
  | none => rfl
  | some d => rw [jsIndex_eq_none pages _ hr]

theorem stampField_err (pngOk : String → Bool) (pages : List PdfPage)
    (sig : SignatureRow) (d : String) (hd : sig.signature_data = some d)
    (hr : inRange pages.length (sig.page_number - 1) = true)
    (hp : pngOk d = false) :
    stampField pngOk pages sig = .error "embedPng failed" := by
  obtain ⟨h, hj⟩ := jsIndex_eq_some pages _ hr
  simp [stampField, hd, hj, embedPng, hp]

theorem stampField_total (pngOk : String → Bool) (pages : List PdfPage)
    (sig : SignatureRow)
    (hsafe : ∀ d, sig.signature_data = some d →
      inRange pages.length (sig.page_number - 1) = true → pngOk d = true) :
    ∃ out, stampField pngOk pages sig = .ok out ∧
      skeletons out = skeletons pages ∧
      imageCount out = imageCount pages +
        (if stampableB pngOk pages.length sig then 1 else 0) := by
  cases hd : sig.signature_data with
  | none =>
      refine ⟨pages, stampField_skip_none pngOk pages sig hd, rfl, ?_⟩
      simp [stampableB, hd]
  | some d =>
      cases hr : inRange pages.length (sig.page_number - 1) with
      | false =>
          refine ⟨pages, stampField_skip_range pngOk pages sig hr, rfl, ?_⟩
          simp [stampableB, hd, hr]
      | true =>
          have hp : pngOk d = true := hsafe d hd hr
          obtain ⟨h, hj⟩ := jsIndex_eq_some pages _ hr
          refine ⟨pages.set (sig.page_number - 1).toNat
            (drawImage (pages.get ⟨(sig.page_number - 1).toNat, h⟩) d sig),
            ?_, ?_, ?_⟩
          · simp [stampField, hd, hj, embedPng, hp]
          · exact skeletons_set pages _ _ h (pageSkeleton_drawImage _ _ _)
          · rw [imageCount_set_add pages _ _ h (drawImage_images_length _ _ _)]
            simp [stampableB, hd, hr, hp]

theorem stampField_ok_skeletons (pngOk : String → Bool) (pages : List PdfPage)
    (sig : SignatureRow) (out : List PdfPage)
    (h : stampField pngOk pages sig = .ok out) :
    skeletons out = skeletons pages := by
  cases hd : sig.signature_data with
  | none =>
      simp [stampField, hd] at h
      rw [← h]
  | some d =>
      cases hj : jsIndex pages (sig.page_number - 1) with
      | none =>
          simp [stampField, hd, hj] at h
          rw [← h]
      | some page =>
          by_cases hp : pngOk d = true
          · simp [stampField, hd, hj, embedPng, hp, -Int.pred_toNat] at h
            unfold jsIndex at hj
            split at hj
            next hcond =>
              cases hj
              rw [← h]
              exact skeletons_set pages _ _ hcond.2 (pageSkeleton_drawImage _ _ _)
            next => simp at hj
          · simp [stampField, hd, hj, embedPng, hp] at h

theorem stampField_ok_length (pngOk : String → Bool) (pages : List PdfPage)
    (sig : SignatureRow) (out : List PdfPage)
    (h : stampField pngOk pages sig = .ok out) :
    out.length = pages.length := by
  have hs := stampField_ok_skeletons pngOk pages sig out h
  have := congrArg List.length hs
  rwa [skeletons_length, skeletons_length] at this

theorem stampLoop_total (pngOk : String → Bool) (rows : List SignatureRow) :
    ∀ pages : List PdfPage,
      (∀ r ∈ rows, ∀ d, r.signature_data = some d →
        inRange pages.length (r.page_number - 1) = true → pngOk d = true) →
      ∃ out, stampLoop pngOk pages rows = .ok out ∧
        skeletons out = skeletons pages ∧
        imageCount out = imageCount pages +
          (rows.filter (stampableB pngOk pages.length)).length := by
  induction rows with
  | nil =>
      intro pages _
      exact ⟨pages, rfl, rfl, by simp⟩
  | cons r rest ih =>
      intro pages hsafe
      obtain ⟨mid, hmid, hsk, hcnt⟩ := stampField_total pngOk pages r
        (fun d hd hr => hsafe r (List.mem_cons_self r rest) d hd hr)
      have hlen : mid.length = pages.length := by
        have h2 := congrArg List.length hsk
        rwa [skeletons_length, skeletons_length] at h2
      obtain ⟨out, hout, hsk2, hcnt2⟩ := ih mid (by
        intro r2 hr2 d hd hr
        exact hsafe r2 (List.mem_cons_of_mem r hr2) d hd (by rwa [hlen] at hr))
      refine ⟨out, ?_, ?_, ?_⟩
      · simp only [stampLoop, hmid]
        exact hout
      · rw [hsk2, hsk]
      · rw [hcnt2, hcnt, hlen]
        cases hb : stampableB pngOk pages.length r <;>
          simp [List.filter_cons, hb] <;> omega

theorem stampLoop_err (pngOk : String → Bool) (rows : List SignatureRow) :
    ∀ pages : List PdfPage,
      (∃ r ∈ rows, ∃ d, r.signature_data = some d ∧
        inRange pages.length (r.page_number - 1) = true ∧ pngOk d = false) →
      ∃ e, stampLoop pngOk pages rows = .error e := by
  induction rows with
  | nil =>
      intro pages h
      simp at h
  | cons r rest ih =>
      rintro pages ⟨r2, hmem, d, hd, hr, hp⟩
      rcases List.mem_cons.mp hmem with heq | hmem2
      · subst heq
        exact ⟨"embedPng failed",
          by simp only [stampLoop, stampField_err pngOk pages r2 d hd hr hp]⟩
      · cases hsf : stampField pngOk pages r with
        | error e => exact ⟨e, by simp only [stampLoop, hsf]⟩
        | ok mid =>
            have hlen := stampField_ok_length pngOk pages r mid hsf
            obtain ⟨e, he⟩ := ih mid ⟨r2, hmem2, d, hd, by rwa [hlen], hp⟩
            refine ⟨e, ?_⟩
            simp only [stampLoop, hsf]
            exact he

theorem stampLoop_skip (pngOk : String → Bool) (sig : SignatureRow) (n : ℕ)
    (hskip : ∀ p : List PdfPage, p.length = n → stampField pngOk p sig = .ok p) :
    ∀ (xs ys : List SignatureRow) (pages : List PdfPage), pages.length = n →
      stampLoop pngOk pages (xs ++ sig :: ys)
        = stampLoop pngOk pages (xs ++ ys) := by
  intro xs
  induction xs with
  | nil =>
      intro ys pages hlen
      simp only [List.nil_append, stampLoop, hskip pages hlen]
  | cons x xs ih =>
      intro ys pages hlen
      simp only [List.cons_append, stampLoop]
      cases hsf : stampField pngOk pages x with
      | error e => rfl
      | ok mid =>
          have hl := stampField_ok_length pngOk pages x mid hsf
          exact ih ys mid (hl.trans hlen)

/-- C6 -- Only rows with status `signed` (the query filter) and a non-null,
decodable image reach `drawImage`: when every signed row has valid data and
an in-range page, the handler succeeds and the output contains exactly one
new embedded image per signed row — page count, page sizes and text content
unchanged — and with no signed rows the output pages equal the input pages. -/
theorem C6_only_signed_stamped (pngOk : String → Bool) (pages : List PdfPage)
    (rows : List SignatureRow)
    (hok : ∀ r ∈ rows, r.status = SigStatus.signed →
      ∃ d, r.signature_data = some d ∧ pngOk d = true ∧
        inRange pages.length (r.page_number - 1) = true) :
    ∃ out, downloadSignedDocument pngOk pages rows = .signedUrl out ∧
      imageCount out = imageCount pages +
        (rows.filter (fun r => decide (r.status = SigStatus.signed))).length ∧
      skeletons out = skeletons pages ∧
      ((∀ r ∈ rows, r.status ≠ SigStatus.signed) → out = pages) := by
  have hmemsr : ∀ r ∈ signedRows rows, r ∈ rows ∧ r.status = SigStatus.signed := by
    intro r hmem
    have h2 := List.mem_filter.mp hmem
    exact ⟨h2.1, by simpa using h2.2⟩
  obtain ⟨out, hout, hsk, hcnt⟩ := stampLoop_total pngOk (signedRows rows) pages
    (by
      intro r hmem d hd hr
      obtain ⟨hrw, hst⟩ := hmemsr r hmem
      obtain ⟨d2, hd2, hp2, _⟩ := hok r hrw hst
      rw [hd] at hd2
      cases hd2
      exact hp2)
  have hfull : (signedRows rows).filter (stampableB pngOk pages.length)
      = signedRows rows := by
    apply List.filter_eq_self.mpr
    intro r hmem
    obtain ⟨hrw, hst⟩ := hmemsr r hmem
    obtain ⟨d, hd, hp, hr⟩ := hok r hrw hst
    simp [stampableB, hd, hr, hp]
  refine ⟨out, ?_, ?_, hsk, ?_⟩
  · simp only [downloadSignedDocument, hout]
  · rw [hcnt, hfull]
    rfl
  · intro hnone
    have hempty : signedRows rows = [] := by
      apply List.filter_eq_nil_iff.mpr
      intro r hmem
      simpa using hnone r hmem
    rw [hempty] at hout
    exact (Except.ok.inj hout).symm

/-- C6 witness: one 612x792 page, three fields of which exactly two are
signed with valid data: the output has exactly 2 embedded images and the
same page skeleton. -/
theorem C6_only_signed_stamped_witness :
    ∃ out, downloadSignedDocument (fun _ => true) [⟨612, 792, "p", []⟩]
        [⟨some "sigA", 1/10, 1/10, 150, 50, 1, .signed⟩,
         ⟨some "sigB", 1/2, 1/2, 150, 50, 1, .signed⟩,
         ⟨none, 1/4, 1/4, 150, 50, 1, .pending⟩] = .signedUrl out ∧
      imageCount out = imageCount [⟨612, 792, "p", []⟩] +
        ([⟨some "sigA", 1/10, 1/10, 150, 50, 1, .signed⟩,
          ⟨some "sigB", 1/2, 1/2, 150, 50, 1, .signed⟩,
          (⟨none, 1/4, 1/4, 150, 50, 1, .pending⟩ : SignatureRow)].filter
            (fun r => decide (r.status = SigStatus.signed))).length ∧
      skeletons out = skeletons [⟨612, 792, "p", []⟩] ∧
      ((∀ r ∈ [⟨some "sigA", 1/10, 1/10, 150, 50, 1, .signed⟩,
          ⟨some "sigB", 1/2, 1/2, 150, 50, 1, .signed⟩,
          (⟨none, 1/4, 1/4, 150, 50, 1, .pending⟩ : SignatureRow)],
        r.status ≠ SigStatus.signed) → out = [⟨612, 792, "p", []⟩]) :=
  C6_only_signed_stamped (fun _ => true) [⟨612, 792, "p", []⟩] _ (by
    intro r hr hs
    simp only [List.mem_cons, List.not_mem_nil, or_false] at hr
    rcases hr with rfl | rfl | rfl
    · exact ⟨"sigA", rfl, rfl, by decide⟩
    · exact ⟨"sigB", rfl, rfl, by decide⟩
    · exact absurd hs (by decide))

/-- C7 -- If any signed row with non-null data on an in-range page fails to
decode, the whole run throws: the handler returns a 500 error response and no
signed document URL is ever produced. -/
theorem C7_embed_failure_aborts (pngOk : String → Bool) (pages : List PdfPage)
    (rows : List SignatureRow) (r : SignatureRow) (d : String)
    (hmem : r ∈ rows) (hst : r.status = SigStatus.signed)
    (hd : r.signature_data = some d)
    (hr : inRange pages.length (r.page_number - 1) = true)
    (hp : pngOk d = false) :
    (∃ e, downloadSignedDocument pngOk pages rows = .errorResponse e) ∧
    ∀ out, downloadSignedDocument pngOk pages rows ≠ .signedUrl out := by
  have hmem2 : r ∈ signedRows rows := List.mem_filter.mpr ⟨hmem, by simp [hst]⟩
  obtain ⟨e, he⟩ := stampLoop_err pngOk (signedRows rows) pages
    ⟨r, hmem2, d, hd, hr, hp⟩
  constructor
  · exact ⟨e, by simp only [downloadSignedDocument, he]⟩
  · intro out hcontra
    simp only [downloadSignedDocument, he] at hcontra
    cases hcontra

/-- C7 witness: a single signed row whose data does not decode makes the
handler return an error response and never a URL. -/
theorem C7_embed_failure_aborts_witness :
    (∃ e, downloadSignedDocument (fun _ => false) [⟨612, 792, "p", []⟩]
        [⟨some "corrupt", 1/10, 1/10, 150, 50, 1, .signed⟩]
      = .errorResponse e) ∧
    ∀ out, downloadSignedDocument (fun _ => false) [⟨612, 792, "p", []⟩]
        [⟨some "corrupt", 1/10, 1/10, 150, 50, 1, .signed⟩]
      ≠ .signedUrl out :=
  C7_embed_failure_aborts (fun _ => false) [⟨612, 792, "p", []⟩] _
    ⟨some "corrupt", 1/10, 1/10, 150, 50, 1, .signed⟩ "corrupt"
    (List.mem_singleton.mpr rfl) rfl rfl (by decide) rfl

/-- C8 -- A row whose `page_number - 1` is outside the page list is skipped
(`if (!page) continue`): its own stamping step returns the pages unchanged,
and the whole loop behaves exactly as if the row were absent, so the other
rows are still stamped and the run is not aborted. -/
theorem C8_out_of_range_skipped (pngOk : String → Bool) (pages : List PdfPage)
    (sig : SignatureRow) (xs ys : List SignatureRow)
    (hr : inRange pages.length (sig.page_number - 1) = false) :
    stampField pngOk pages sig = .ok pages ∧
    stampLoop pngOk pages (xs ++ sig :: ys)
      = stampLoop pngOk pages (xs ++ ys) := by
  constructor
  · exact stampField_skip_range pngOk pages sig hr
  · refine stampLoop_skip pngOk sig pages.length ?_ xs ys pages rfl
    intro p hl
    exact stampField_skip_range pngOk p sig (by rwa [hl])

/-- C8 witness: a field with `page_number = 99` on a 3-page document is
skipped and the loop result equals the loop over the other fields. -/
theorem C8_out_of_range_skipped_witness :
    stampField (fun _ => true)
        [⟨612, 792, "a", []⟩, ⟨612, 792, "b", []⟩, ⟨612, 792, "c", []⟩]
        ⟨some "sigX", 1/10, 1/10, 150, 50, 99, .signed⟩
      = .ok [⟨612, 792, "a", []⟩, ⟨612, 792, "b", []⟩, ⟨612, 792, "c", []⟩] ∧
    stampLoop (fun _ => true)
        [⟨612, 792, "a", []⟩, ⟨612, 792, "b", []⟩, ⟨612, 792, "c", []⟩]
        ([⟨some "sigA", 1/10, 1/10, 150, 50, 1, .signed⟩] ++
          ⟨some "sigX", 1/10, 1/10, 150, 50, 99, .signed⟩ ::
          [⟨some "sigB", 1/2, 1/2, 150, 50, 3, .signed⟩])
      = stampLoop (fun _ => true)
        [⟨612, 792, "a", []⟩, ⟨612, 792, "b", []⟩, ⟨612, 792, "c", []⟩]
        ([⟨some "sigA", 1/10, 1/10, 150, 50, 1, .signed⟩] ++
          [⟨some "sigB", 1/2, 1/2, 150, 50, 3, .signed⟩]) :=
  C8_out_of_range_skipped (fun _ => true) _
    ⟨some "sigX", 1/10, 1/10, 150, 50, 99, .signed⟩ _ _ (by decide)

/-- C10 -- A row with status `signed` but null `signature_data` is silently
skipped by the `if (sig.signature_data)` guard: its stamping step leaves the
pages unchanged and the handler result equals the handler result without that
row, so the run still completes with the other rows stamped. -/
theorem C10_null_data_skipped (pngOk : String → Bool) (pages : List PdfPage)
    (sig : SignatureRow) (xs ys : List SignatureRow)
    (hst : sig.status = SigStatus.signed) (hd : sig.signature_data = none) :
    stampField pngOk pages sig = .ok pages ∧
    downloadSignedDocument pngOk pages (xs ++ sig :: ys)
      = downloadSignedDocument pngOk pages (xs ++ ys) := by
  refine ⟨stampField_skip_none pngOk pages sig hd, ?_⟩
  have hsr : signedRows (xs ++ sig :: ys)
      = signedRows xs ++ sig :: signedRows ys := by
    simp [signedRows, List.filter_append, List.filter_cons, hst]
  have hsr2 : signedRows (xs ++ ys) = signedRows xs ++ signedRows ys := by
    simp [signedRows, List.filter_append]
  unfold downloadSignedDocument
  rw [hsr, hsr2,
    stampLoop_skip pngOk sig pages.length
      (fun p _ => stampField_skip_none pngOk p sig hd) _ _ pages rfl]

/-- C10 witness: a signed row with null data among two stampable rows leaves
the handler result identical to the run without it. -/
theorem C10_null_data_skipped_witness :
    stampField (fun _ => true) [⟨612, 792, "p", []⟩]
        ⟨none, 1/4, 1/4, 150, 50, 1, .signed⟩
      = .ok [⟨612, 792, "p", []⟩] ∧
    downloadSignedDocument (fun _ => true) [⟨612, 792, "p", []⟩]
        ([⟨some "sigA", 1/10, 1/10, 150, 50, 1, .signed⟩] ++
          ⟨none, 1/4, 1/4, 150, 50, 1, .signed⟩ ::
          [⟨some "sigB", 1/2, 1/2, 150, 50, 1, .signed⟩])
      = downloadSignedDocument (fun _ => true) [⟨612, 792, "p", []⟩]
        ([⟨some "sigA", 1/10, 1/10, 150, 50, 1, .signed⟩] ++
          [⟨some "sigB", 1/2, 1/2, 150, 50, 1, .signed⟩]) :=
  C10_null_data_skipped (fun _ => true) _ ⟨none, 1/4, 1/4, 150, 50, 1, .signed⟩
    _ _ rfl rfl

/-- The two input modes of the SignatureCapture dialog. -/
inductive SignatureMode where
  | draw : SignatureMode
  | typed : SignatureMode
deriving DecidableEq, Repr

/-- The state of the SignatureCapture component when the Complete button is
clicked: the mode toggle, whether the freehand canvas is empty
(`canvasRef.current.isEmpty()`), the data URL the canvas would export
(`toDataURL`, a non-empty string in the browser), the typed string, and the
signer fields. -/
structure CaptureState where
  mode : SignatureMode
  canvasEmpty : Bool
  canvasImage : String
  typedSignature : String
  signerName : String
  signerEmail : String
deriving DecidableEq, Repr

/-- JavaScript whitespace as removed by `String.prototype.trim` (the
characters relevant here). -/
def isWS (c : Char) : Bool :=
  c = ' ' || c = '\t' || c = '\n' || c = '\r'

/-- Drop leading whitespace from a character list. -/
def dropWSLeft : List Char → List Char
  | [] => []
  | c :: cs => if isWS c then dropWSLeft cs else c :: cs

/-- JavaScript `s.trim()`: strip whitespace from both ends. -/
def jsTrim (s : String) : String :=
  ⟨(dropWSLeft ((dropWSLeft s.data).reverse)).reverse⟩

/-- Rendering of the typed string onto the 400x100 canvas followed by
`toDataURL('image/png')`; the exact bytes are produced by the external canvas
API, abstracted as a non-empty string determined by the text. -/
def typedCanvasPng (s : String) : String :=
  "data:image/png;base64," ++ s

/-- `hasSignature` in the source:
`signatureMode === 'draw' ? !canvasRef.current.isEmpty()
: typedSignature.trim().length > 0`. -/
def hasSignatureInput (st : CaptureState) : Bool :=
  match st.mode with
  | .draw => !st.canvasEmpty
  | .typed => !(jsTrim st.typedSignature = "")

/-- The Complete-button `disabled` condition:
`!hasSignature || !signerName.trim() || !signerEmail.trim()`. -/
def completeDisabled (st : CaptureState) : Bool :=
  !hasSignatureInput st || jsTrim st.signerName = "" || jsTrim st.signerEmail = ""

/-- The `signatureData` string built inside `handleComplete`: the canvas data
URL when drawing on a non-empty canvas, the typed-text render when the trimmed
string is non-empty, and the initial `''` otherwise. -/
def handleCompleteData (st : CaptureState) : String :=
  match st.mode with
  | .draw => if st.canvasEmpty then "" else st.canvasImage
  | .typed =>
      if jsTrim st.typedSignature = "" then "" else typedCanvasPng st.typedSignature

/-- A click on the Complete button: nothing happens while the button is
disabled; `handleComplete` then returns early on falsy (empty) data
(`if (!signatureData) return`) and otherwise hands the image to
`onComplete`. -/
def clickComplete (st : CaptureState) : Option String :=
  if completeDisabled st then none
  else if handleCompleteData st = "" then none
  else some (handleCompleteData st)

/-- C9 -- Capture completion is gated on its inputs: an empty freehand canvas
yields no image even with valid signer info; a typed signature whose trimmed
text is empty yields no image; an empty trimmed signer name or email yields no
image even with a valid signature; and an image is handed to `onComplete` only
when a signature input is present and both signer fields are non-empty. -/
theorem C9_capture_gating :
    (∀ st : CaptureState, st.mode = .draw → st.canvasEmpty = true →
      clickComplete st = none) ∧
    (∀ st : CaptureState, st.mode = .typed → jsTrim st.typedSignature = "" →
      clickComplete st = none) ∧
    (∀ st : CaptureState,
      jsTrim st.signerName = "" ∨ jsTrim st.signerEmail = "" →
      clickComplete st = none) ∧
    (∀ st : CaptureState, ∀ img, clickComplete st = some img →
      hasSignatureInput st = true ∧
      jsTrim st.signerName ≠ "" ∧ jsTrim st.signerEmail ≠ "") := by
  refine ⟨?_, ?_, ?_, ?_⟩
  · intro st hm hc
    simp [clickComplete, completeDisabled, hasSignatureInput, hm, hc,
      handleCompleteData]
  · intro st hm ht
    simp [clickComplete, completeDisabled, hasSignatureInput, hm, ht,
      handleCompleteData]
  · intro st hinfo
    rcases hinfo with hn | he
    · simp [clickComplete, completeDisabled, hn]
    · simp [clickComplete, completeDisabled, he]
  · intro st img hsome
    unfold clickComplete at hsome
    by_cases hdis : completeDisabled st = true
    · rw [if_pos hdis] at hsome
      cases hsome
    · rw [if_neg hdis] at hsome
      have hdis2 : completeDisabled st = false := by
        cases h : completeDisabled st
        · rfl
        · exact absurd h hdis
      unfold completeDisabled at hdis2
      simp only [Bool.or_eq_false_iff, Bool.not_eq_false',
        decide_eq_false_iff_not] at hdis2
      exact ⟨hdis2.1.1, hdis2.1.2, hdis2.2⟩

/-- C9 witness: the four gates at concrete capture states: an empty canvas
with full signer info, an all-whitespace typed signature, a valid drawing
with a blank email, and a successful completion. -/
theorem C9_capture_gating_witness :
    clickComplete ⟨.draw, true, "data:png", "", "Alice", "alice@x.com"⟩
      = none ∧
    clickComplete ⟨.typed, true, "", "   ", "Alice", "alice@x.com"⟩ = none ∧
    clickComplete ⟨.draw, false, "data:png", "", "Alice", ""⟩ = none ∧
    (hasSignatureInput ⟨.draw, false, "data:png", "", "Alice", "alice@x.com"⟩
        = true ∧
      jsTrim "Alice" ≠ "" ∧ jsTrim "alice@x.com" ≠ "") :=
  ⟨C9_capture_gating.1 _ rfl rfl,
   C9_capture_gating.2.1 _ rfl (by decide),
   C9_capture_gating.2.2.1 _ (Or.inr (by decide)),
   C9_capture_gating.2.2.2 ⟨.draw, false, "data:png", "", "Alice",
     "alice@x.com"⟩ "data:png" (by decide)⟩

/-- A signature row as held in SignDocument state: its id, status and data. -/
structure SignRow where
  id : String
  status : SigStatus
  signature_data : Option String
deriving DecidableEq, Repr

/-- `handleSignatureComplete`: the update targets the row whose id is
`currentSignatureId`, setting `status: 'signed'` and attaching the image;
all other rows are left as they are. -/
def handleSignatureComplete (sigs : List SignRow) (cur : String)
    (data : String) : List SignRow :=
  sigs.map fun s =>
    if s.id = cur then { s with status := .signed, signature_data := some data }
    else s

/-- `handleRejectDocument`: the update matches on `document_id` and
`signer_email` only — every one of the signer's rows is set to
`status: 'rejected'`, with no filter on the current status. -/
def handleRejectDocument (sigs : List SignRow) : List SignRow :=
  sigs.map fun s => { s with status := .rejected }

/-- The render condition of the Reject Document button:
`!allSigned && !hasRejected`. -/
def rejectAvailable (sigs : List SignRow) : Bool :=
  !(sigs.all fun s => decide (s.status = SigStatus.signed)) &&
  !(sigs.any fun s => decide (s.status = SigStatus.rejected))

/-- C3 -- Counterexample: with one field already signed and one still
pending, the Reject Document button is rendered (`!allSigned &&
!hasRejected`), and clicking it sets every field — including the signed
one — to rejected, so a signed field is later changed to rejected. -/
theorem C3_counterexample :
    rejectAvailable [⟨"a", .signed, some "img"⟩, ⟨"b", .pending, none⟩]
      = true ∧
    (handleRejectDocument
        [⟨"a", .signed, some "img"⟩, ⟨"b", .pending, none⟩]).map
      (fun s => s.status) = [.rejected, .rejected] := by
  constructor
  · decide
  · decide

/-- C3 (amended) -- Statuses range over pending/signed/rejected.  Signing
(only offered on a pending field) performs pending → signed and leaves every
non-pending row untouched, and every row it produces is either signed or an
unchanged input row; rejection, however, sets every one of the signer's rows
to rejected regardless of its current status, so a signed field can later
become rejected while not all of the signer's fields are signed. -/
theorem C3_transitions (sigs : List SignRow) (cur data : String)
    (hcur : ∀ s ∈ sigs, s.id = cur → s.status = SigStatus.pending) :
    (∀ s ∈ sigs, s.status ≠ SigStatus.pending →
      s ∈ handleSignatureComplete sigs cur data) ∧
    (∀ s ∈ handleSignatureComplete sigs cur data,
      s.status = SigStatus.signed ∨ s ∈ sigs) ∧
    (∀ s ∈ handleRejectDocument sigs, s.status = SigStatus.rejected) := by
  refine ⟨?_, ?_, ?_⟩
  · intro s hs hnp
    have hid : ¬ s.id = cur := fun h => hnp (hcur s hs h)
    unfold handleSignatureComplete
    refine List.mem_map.mpr ⟨s, hs, ?_⟩
    rw [if_neg hid]
  · intro s hs
    obtain ⟨t, ht, hmap⟩ := List.mem_map.mp hs
    subst hmap
    by_cases hid : t.id = cur
    · left
      rw [if_pos hid]
    · right
      rw [if_neg hid]
      exact ht
  · intro s hs
    obtain ⟨t, ht, hmap⟩ := List.mem_map.mp hs
    rw [← hmap]

/-- C3 witness: the amended transition facts at a concrete pair of rows, one
pending (and targeted by the signing update) and one signed. -/
theorem C3_transitions_witness :
    (∀ s ∈ [⟨"a", .pending, none⟩, (⟨"b", .signed, some "i"⟩ : SignRow)],
      s.status ≠ SigStatus.pending →
      s ∈ handleSignatureComplete
        [⟨"a", .pending, none⟩, ⟨"b", .signed, some "i"⟩] "a" "img") ∧
    (∀ s ∈ handleSignatureComplete
        [⟨"a", .pending, none⟩, ⟨"b", .signed, some "i"⟩] "a" "img",
      s.status = SigStatus.signed ∨
      s ∈ [⟨"a", .pending, none⟩, (⟨"b", .signed, some "i"⟩ : SignRow)]) ∧
    (∀ s ∈ handleRejectDocument
        [⟨"a", .pending, none⟩, ⟨"b", .signed, some "i"⟩],
      s.status = SigStatus.rejected) :=
  C3_transitions [⟨"a", .pending, none⟩, ⟨"b", .signed, some "i"⟩] "a" "img"
    (by decide)
